import Mathlib

/-!
Verification of the Aqara scaled-range transcoder
(`homeassistant/components/aqara/base.py`).

The Python source defines two dataclasses, `IntegerTypeData` and
`EnumTypeData`, each constructed by `from_json` as `cls(**json.loads(data))`,
together with the scaling and remapping arithmetic on `IntegerTypeData`.
We embed the parsed JSON object as an association list of `JVal` values,
numeric arithmetic over `ℚ` (exact rationals standing for Python numbers),
and Python `int(...)` casts as truncation toward zero.
-/

namespace Aqara

/-- A parsed JSON value, as produced by Python `json.loads`:
numbers, strings, arrays, booleans and `null`. -/
inductive JVal : Type where
  | num (q : ℚ)
  | str (s : String)
  | arr (xs : List JVal)
  | jbool (b : Bool)
  | null

/-- A parsed JSON object: the keyword-argument dictionary passed to the
dataclass constructor by `cls(**json.loads(data))`.  Keys are unique
(Python dicts from `json.loads` have unique keys). -/
abbrev JObj := List (String × JVal)

/-- The Python error raised when a dataclass constructor receives a missing
required keyword argument or an unexpected keyword argument. -/
inductive PyError : Type where
  | typeError
deriving DecidableEq, Repr

/-- Domain error of the remap operations, named as in the spec. -/
inductive RangeError : Type where
  | DegenerateRange
deriving DecidableEq, Repr

/-- The `IntegerTypeData` dataclass of `base.py` (lines 37-46), restricted to
instances whose fields conform to the declared annotations
(`min: int`, `max: int`, `scale: float`, `step: float`,
`unit: str | None`, `type: str | None`).  Numbers are embedded as exact
rationals; `scale` is an integer decimal exponent. -/
structure IntegerTypeData : Type where
  min : ℚ
  max : ℚ
  scale : ℤ
  step : ℚ
  unit : Option String
  type : Option String
deriving DecidableEq, Repr

/-- `scale_value` (base.py lines 63-65): `value * 1.0 / (10**self.scale)`. -/
def IntegerTypeData.scale_value (d : IntegerTypeData) (value : ℚ) : ℚ :=
  value * 1 / (10 : ℚ) ^ d.scale

/-- Python `int(q)`: truncation toward zero. -/
def truncToward0 (q : ℚ) : ℤ :=
  if 0 ≤ q then ⌊q⌋ else ⌈q⌉

/-- `scale_value_back` (base.py lines 67-69): `int(value * (10**self.scale))`. -/
def IntegerTypeData.scale_value_back (d : IntegerTypeData) (value : ℚ) : ℤ :=
  truncToward0 (value * (10 : ℚ) ^ d.scale)

/-- `max_scaled` property (base.py lines 48-51): `self.scale_value(self.max)`. -/
def IntegerTypeData.max_scaled (d : IntegerTypeData) : ℚ :=
  d.scale_value d.max

/-- `min_scaled` property (base.py lines 53-56): `self.scale_value(self.min)`. -/
def IntegerTypeData.min_scaled (d : IntegerTypeData) : ℚ :=
  d.scale_value d.min

/-- `step_scaled` property (base.py lines 58-61): `self.scale_value(self.step)`. -/
def IntegerTypeData.step_scaled (d : IntegerTypeData) : ℚ :=
  d.scale_value d.step

/-- Modelled from the spec: the helper `remap_value` is imported by `base.py`
from `homeassistant/components/aqara/util.py`, which is not under `src/`.
Section 4.1 of the spec gives the formula
`(value - from_min) / (from_max - from_min) * (to_max - to_min) + to_min`,
with `(from_max - value)` in place of `(value - from_min)` when `reverse`
is true. -/
def remap_value (value from_min from_max to_min to_max : ℚ) (reverse : Bool) : ℚ :=
  (if reverse then from_max - value else value - from_min) /
      (from_max - from_min) * (to_max - to_min) + to_min

/-- `remap_value_to` (base.py lines 71-79):
`remap_value(value, self.min, self.max, to_min, to_max, reverse)`.
The degenerate-range guard is modelled from the spec (section 7): the
operation fails with `DegenerateRange` when `max == min`, since `util.py`
itself is not under `src/`. -/
def IntegerTypeData.remap_value_to (d : IntegerTypeData)
    (value to_min to_max : ℚ) (reverse : Bool) : Except RangeError ℚ :=
  if d.max = d.min then .error .DegenerateRange
  else .ok (remap_value value d.min d.max to_min to_max reverse)

/-- `remap_value_from` (base.py lines 81-89):
`remap_value(value, from_min, from_max, self.min, self.max, reverse)`.
Degenerate-range guard modelled from the spec (section 7), as for
`remap_value_to`. -/
def IntegerTypeData.remap_value_from (d : IntegerTypeData)
    (value from_min from_max : ℚ) (reverse : Bool) : Except RangeError ℚ :=
  if d.max = d.min then .error .DegenerateRange
  else .ok (remap_value value from_min from_max d.min d.max reverse)

/-- The raw result of `IntegerTypeData(**kwargs)`: Python dataclasses store
whatever values they are given, with no type or invariant checking, so
every field holds an arbitrary JSON value (`null` standing for Python
`None`, the default of `unit` and `type`). -/
structure IntegerTypeDataRaw : Type where
  min : JVal
  max : JVal
  scale : JVal
  step : JVal
  unit : JVal
  type : JVal

/-- The declared field names of the `IntegerTypeData` dataclass: the
keyword arguments its constructor accepts. -/
def integerTypeFields : List String :=
  ["min", "max", "scale", "step", "unit", "type"]

/-- `IntegerTypeData.from_json` (base.py lines 91-94):
`cls(**json.loads(data))`.  The call succeeds exactly when every key of the
object is a declared field and the four fields without defaults
(`min`, `max`, `scale`, `step`) are all present; otherwise Python raises
`TypeError`.  No value is inspected: types and range invariants are not
checked. -/
def IntegerTypeDataRaw.from_json (d : JObj) : Except PyError IntegerTypeDataRaw :=
  if d.all (fun kv => integerTypeFields.contains kv.1) then
    match d.lookup "min", d.lookup "max", d.lookup "scale", d.lookup "step" with
    | some mn, some mx, some sc, some st =>
        .ok ⟨mn, mx, sc, st, (d.lookup "unit").getD .null, (d.lookup "type").getD .null⟩
    | _, _, _, _ => .error .typeError
  else .error .typeError

/-- Interpret a JSON value as a number, if it is one. -/
def JVal.asRat : JVal → Option ℚ
  | .num q => some q
  | _ => none

/-- Interpret a JSON value as an integer, if it is an integral number. -/
def JVal.asInt : JVal → Option ℤ
  | .num q => if q.den = 1 then some q.num else none
  | _ => none

/-- Interpret a JSON value as an optional string (`null` is Python `None`). -/
def JVal.asOptString : JVal → Option (Option String)
  | .null => some none
  | .str s => some (some s)
  | _ => none

/-- The annotation-conforming view of a raw instance: defined exactly when
the stored values match the declared field types of the dataclass. -/
def IntegerTypeDataRaw.toTyped (r : IntegerTypeDataRaw) : Option IntegerTypeData :=
  match r.min.asRat, r.max.asRat, r.scale.asInt, r.step.asRat,
      r.unit.asOptString, r.type.asOptString with
  | some mn, some mx, some sc, some st, some u, some t =>
      some ⟨mn, mx, sc, st, u, t⟩
  | _, _, _, _, _, _ => none

/-- The `EnumTypeData` dataclass of `base.py` (lines 108-118): a single field
`range: list[str]`.  As for `IntegerTypeDataRaw`, Python stores the given
value unchecked, so the field holds an arbitrary JSON value. -/
structure EnumTypeData : Type where
  range : JVal

/-- `EnumTypeData.from_json` (base.py lines 115-118): `cls(**json.loads(data))`.
Succeeds exactly when every key is `range` and `range` is present; the
value (empty, duplicated, or non-list) is not inspected. -/
def EnumTypeData.from_json (d : JObj) : Except PyError EnumTypeData :=
  if d.all (fun kv => kv.1 == "range") then
    match d.lookup "range" with
    | some v => .ok ⟨v⟩
    | none => .error .typeError
  else .error .typeError

/-! ### Concrete descriptors used in the spec's examples -/

/-- The descriptor `{"min":10,"max":5,"scale":0,"step":1}`. -/
def descMinGtMax : JObj :=
  [("min", .num 10), ("max", .num 5), ("scale", .num 0), ("step", .num 1)]

/-- The descriptor `{"min":0,"max":0,"scale":0,"step":1}`. -/
def descZeroRange : JObj :=
  [("min", .num 0), ("max", .num 0), ("scale", .num 0), ("step", .num 1)]

/-- The descriptor `{"min":0,"max":100,"scale":1,"step":1}`. -/
def descStandard : JObj :=
  [("min", .num 0), ("max", .num 100), ("scale", .num 1), ("step", .num 1)]

/-- The descriptor `{"range": ["open","closed","open"]}`. -/
def descDupRange : JObj :=
  [("range", .arr [.str "open", .str "closed", .str "open"])]

/-! ### Theorems -/

/-- C2: for every `IntegerTypeData` with `max == min`, both `remap_value_to`
and `remap_value_from` fail with `DegenerateRange` on every input. -/
theorem c2_degenerate_range_error (d : IntegerTypeData)
    (value to_min to_max : ℚ) (reverse : Bool) (h : d.max = d.min) :
    d.remap_value_to value to_min to_max reverse = .error .DegenerateRange ∧
    d.remap_value_from value to_min to_max reverse = .error .DegenerateRange := by
  unfold IntegerTypeData.remap_value_to IntegerTypeData.remap_value_from
  rw [if_pos h, if_pos h]
  exact ⟨rfl, rfl⟩

/-- C2 witness: the descriptor `{"min":0,"max":0,"scale":0,"step":1}`
constructs an instance whose `remap_value_to(0)` (with the default bounds
`0, 255`) fails with `DegenerateRange`. -/
theorem c2_degenerate_range_error_witness :
    IntegerTypeDataRaw.from_json descZeroRange =
      .ok ⟨.num 0, .num 0, .num 0, .num 1, .null, .null⟩ ∧
    IntegerTypeDataRaw.toTyped ⟨.num 0, .num 0, .num 0, .num 1, .null, .null⟩ =
      some ⟨0, 0, 0, 1, none, none⟩ ∧
    IntegerTypeData.remap_value_to ⟨0, 0, 0, 1, none, none⟩ 0 0 255 false =
      .error .DegenerateRange :=
  ⟨rfl, rfl, (c2_degenerate_range_error ⟨0, 0, 0, 1, none, none⟩ 0 0 255 false rfl).1⟩

/-- C3: for every `IntegerTypeData` with `scale >= 0`, `scale_value raw`
equals `raw / 10^scale`, and the divisor `10^scale` is never zero. -/
theorem c3_scale_value_divides (d : IntegerTypeData) (h : 0 ≤ d.scale) (raw : ℚ) :
    d.scale_value raw = raw / (10 : ℚ) ^ d.scale ∧ (10 : ℚ) ^ d.scale ≠ 0 := by
  refine ⟨?_, zpow_ne_zero _ (by norm_num)⟩
  unfold IntegerTypeData.scale_value
  rw [mul_one]

/-- C3 witness: `scale_value` at the range `{"min":0,"max":100,"scale":1,"step":1}`
and input `50`. -/
theorem c3_scale_value_divides_witness :
    IntegerTypeData.scale_value ⟨0, 100, 1, 1, none, none⟩ 50 =
      50 / (10 : ℚ) ^ (1 : ℤ) ∧ (10 : ℚ) ^ (1 : ℤ) ≠ 0 :=
  c3_scale_value_divides ⟨0, 100, 1, 1, none, none⟩ (by norm_num) 50

/-- C5: for every `IntegerTypeData` with `min < max`, every non-degenerate
pair of target bounds, and every `value` in `[min, max]`,
`remap_value_from (remap_value_to value) == value` exactly (hence within any
floating-point tolerance), with the same bounds and the same `reverse` flag
on both sides, for `reverse` false and true alike. -/
theorem c5_remap_round_trip (d : IntegerTypeData) (value to_min to_max : ℚ)
    (reverse : Bool) (hlt : d.min < d.max) (hto : to_min ≠ to_max)
    (hlo : d.min ≤ value) (hhi : value ≤ d.max) :
    ∃ w, d.remap_value_to value to_min to_max reverse = .ok w ∧
      d.remap_value_from w to_min to_max reverse = .ok value := by
  have hne : d.max ≠ d.min := ne_of_gt hlt
  have hM : d.max - d.min ≠ 0 := sub_ne_zero.mpr hne
  have hT : to_max - to_min ≠ 0 := sub_ne_zero.mpr (Ne.symm hto)
  refine ⟨remap_value value d.min d.max to_min to_max reverse, ?_, ?_⟩
  · unfold IntegerTypeData.remap_value_to
    rw [if_neg hne]
  · unfold IntegerTypeData.remap_value_from
    rw [if_neg hne]
    unfold remap_value
    cases reverse
    · simp only [Bool.false_eq_true, if_false]
      congr 1
      field_simp
      ring
    · simp only [if_true]
      congr 1
      field_simp
      ring

/-- C5 witness: the range `{"min":0,"max":100,"scale":1,"step":1}`,
`value = 30`, bounds `0, 255`, `reverse = true`. -/
theorem c5_remap_round_trip_witness :
    ∃ w, IntegerTypeData.remap_value_to ⟨0, 100, 1, 1, none, none⟩ 30 0 255 true = .ok w ∧
      IntegerTypeData.remap_value_from ⟨0, 100, 1, 1, none, none⟩ w 0 255 true = .ok 30 :=
  c5_remap_round_trip ⟨0, 100, 1, 1, none, none⟩ 30 0 255 true
    (by norm_num) (by norm_num) (by norm_num) (by norm_num)

/-- C6: for every `IntegerTypeData` with `min < max`, `remap_value_to` with
`reverse = true` sends `min` to `to_max` and `max` to `to_min`, and agrees
everywhere with the non-reversed remap of the mirrored input
`min + max - value` (i.e. it uses `(max - value)` in place of
`(value - min)`). -/
theorem c6_remap_reverse (d : IntegerTypeData) (to_min to_max : ℚ)
    (hlt : d.min < d.max) :
    d.remap_value_to d.min to_min to_max true = .ok to_max ∧
    d.remap_value_to d.max to_min to_max true = .ok to_min ∧
    ∀ value, d.remap_value_to value to_min to_max true =
      d.remap_value_to (d.min + d.max - value) to_min to_max false := by
  have hne : d.max ≠ d.min := ne_of_gt hlt
  have hM : d.max - d.min ≠ 0 := sub_ne_zero.mpr hne
  have hred : ∀ (v : ℚ) (r : Bool), d.remap_value_to v to_min to_max r =
      .ok (remap_value v d.min d.max to_min to_max r) := by
    intro v r
    unfold IntegerTypeData.remap_value_to
    rw [if_neg hne]
  refine ⟨?_, ?_, fun value => ?_⟩
  · rw [hred]
    unfold remap_value
    simp only [if_true]
    rw [div_self hM, one_mul]
    ring
  · rw [hred]
    unfold remap_value
    simp only [if_true, sub_self, zero_div, zero_mul, zero_add]
  · rw [hred, hred]
    unfold remap_value
    simp only [if_true, Bool.false_eq_true, if_false]
    congr 1
    ring

/-- C6 witness: the range `{"min":0,"max":100,"scale":1,"step":1}` with
bounds `0, 255`. -/
theorem c6_remap_reverse_witness :
    IntegerTypeData.remap_value_to ⟨0, 100, 1, 1, none, none⟩ 0 0 255 true = .ok 255 ∧
    IntegerTypeData.remap_value_to ⟨0, 100, 1, 1, none, none⟩ 100 0 255 true = .ok 0 ∧
    ∀ value, IntegerTypeData.remap_value_to ⟨0, 100, 1, 1, none, none⟩ value 0 255 true =
      IntegerTypeData.remap_value_to ⟨0, 100, 1, 1, none, none⟩ (0 + 100 - value) 0 255 false :=
  c6_remap_reverse ⟨0, 100, 1, 1, none, none⟩ 0 255 (by norm_num)

/-- C9: for every `IntegerTypeData` with `min <= max` and `scale >= 0`,
`min_scaled <= max_scaled`. -/
theorem c9_min_scaled_le_max_scaled (d : IntegerTypeData)
    (h1 : d.min ≤ d.max) (h2 : 0 ≤ d.scale) :
    d.min_scaled ≤ d.max_scaled := by
  have hp : (0 : ℚ) < (10 : ℚ) ^ d.scale := zpow_pos (by norm_num) _
  unfold IntegerTypeData.min_scaled IntegerTypeData.max_scaled IntegerTypeData.scale_value
  rw [mul_one, mul_one]
  exact (div_le_div_iff_of_pos_right hp).mpr h1

/-- C4: `scale_value_back` returns `value * 10^scale` truncated toward zero
and cast to integer: the result `r` satisfies `|r| <= |value * 10^scale|`
and `|value * 10^scale - r| < 1` (which pins down truncation toward zero,
not round-to-nearest); at `2.7` it returns `2` and at `-2.7` it returns
`-2`, where round-to-nearest would give `3` and `-3`. -/
theorem c4_scale_value_back_truncates :
    (∀ (d : IntegerTypeData) (v : ℚ),
        |((d.scale_value_back v : ℤ) : ℚ)| ≤ |v * (10 : ℚ) ^ d.scale| ∧
        |v * (10 : ℚ) ^ d.scale - ((d.scale_value_back v : ℤ) : ℚ)| < 1) ∧
    IntegerTypeData.scale_value_back ⟨0, 100, 0, 1, none, none⟩ (27 / 10) = 2 ∧
    IntegerTypeData.scale_value_back ⟨0, 100, 0, 1, none, none⟩ (-(27 / 10)) = -2 := by
  refine ⟨fun d v => ?_, ?_, ?_⟩
  · set q := v * (10 : ℚ) ^ d.scale with hqdef
    have hval : d.scale_value_back v = truncToward0 q := rfl
    rw [hval]
    unfold truncToward0
    by_cases h : (0 : ℚ) ≤ q
    · rw [if_pos h]
      have h1 : ((⌊q⌋ : ℤ) : ℚ) ≤ q := Int.floor_le q
      have h2 : q < ⌊q⌋ + 1 := Int.lt_floor_add_one q
      have h3 : (0 : ℤ) ≤ ⌊q⌋ := Int.floor_nonneg.mpr h
      have h4 : (0 : ℚ) ≤ ((⌊q⌋ : ℤ) : ℚ) := by exact_mod_cast h3
      rw [abs_of_nonneg h4, abs_of_nonneg h, abs_of_nonneg (by linarith)]
      exact ⟨h1, by linarith⟩
    · rw [if_neg h]
      push_neg at h
      have h1 : q ≤ ((⌈q⌉ : ℤ) : ℚ) := Int.le_ceil q
      have h2 : ((⌈q⌉ : ℤ) : ℚ) < q + 1 := Int.ceil_lt_add_one q
      have h3 : ⌈q⌉ ≤ 0 := Int.ceil_le.mpr (by exact_mod_cast h.le)
      have h4 : ((⌈q⌉ : ℤ) : ℚ) ≤ 0 := by exact_mod_cast h3
      rw [abs_of_nonpos h4, abs_of_nonpos h.le, abs_of_nonpos (by linarith)]
      exact ⟨by linarith, by linarith⟩
  · show truncToward0 ((27 / 10 : ℚ) * (10 : ℚ) ^ (0 : ℤ)) = 2
    norm_num [truncToward0]
  · show truncToward0 ((-(27 / 10) : ℚ) * (10 : ℚ) ^ (0 : ℤ)) = -2
    rw [truncToward0]
    norm_num
    rw [Int.ceil_eq_iff]
    norm_num

/-- C8: for every `IntegerTypeData` and every integer `v`,
`scale_value_back (scale_value v) == v` exactly; in particular the range
built from `{"min":0,"max":100,"scale":1,"step":1}` has
`scale_value 50 == 5` and `scale_value_back 5 == 50`. -/
theorem c8_unscale_scale_round_trip :
    (∀ (d : IntegerTypeData) (v : ℤ), d.scale_value_back (d.scale_value (v : ℚ)) = v) ∧
    IntegerTypeDataRaw.from_json descStandard =
      .ok ⟨.num 0, .num 100, .num 1, .num 1, .null, .null⟩ ∧
    IntegerTypeDataRaw.toTyped ⟨.num 0, .num 100, .num 1, .num 1, .null, .null⟩ =
      some ⟨0, 100, 1, 1, none, none⟩ ∧
    IntegerTypeData.scale_value ⟨0, 100, 1, 1, none, none⟩ 50 = 5 ∧
    IntegerTypeData.scale_value_back ⟨0, 100, 1, 1, none, none⟩ 5 = 50 := by
  refine ⟨fun d v => ?_, rfl, rfl, ?_, ?_⟩
  · have hne : ((10 : ℚ) ^ d.scale) ≠ 0 := zpow_ne_zero _ (by norm_num)
    have hback : d.scale_value (v : ℚ) * (10 : ℚ) ^ d.scale = (v : ℚ) := by
      unfold IntegerTypeData.scale_value
      field_simp
    show truncToward0 (d.scale_value (v : ℚ) * (10 : ℚ) ^ d.scale) = v
    rw [hback]
    unfold truncToward0
    by_cases h : (0 : ℚ) ≤ (v : ℚ)
    · rw [if_pos h, Int.floor_intCast]
    · rw [if_neg h, Int.ceil_intCast]
  · show (50 : ℚ) * 1 / (10 : ℚ) ^ (1 : ℤ) = 5
    norm_num
  · show truncToward0 ((5 : ℚ) * (10 : ℚ) ^ (1 : ℤ)) = 50
    norm_num [truncToward0]

/-- C9 witness: the range `{"min":0,"max":100,"scale":1,"step":1}`. -/
theorem c9_min_scaled_le_max_scaled_witness :
    IntegerTypeData.min_scaled ⟨0, 100, 1, 1, none, none⟩ ≤
      IntegerTypeData.max_scaled ⟨0, 100, 1, 1, none, none⟩ :=
  c9_min_scaled_le_max_scaled ⟨0, 100, 1, 1, none, none⟩ (by norm_num) (by norm_num)

/-- C1 counterexample: the descriptor `{"min":10,"max":5,"scale":0,"step":1}`
does not fail: `from_json` constructs an instance with `min > max`. -/
theorem c1_min_gt_max_accepted :
    IntegerTypeDataRaw.from_json descMinGtMax =
      .ok ⟨.num 10, .num 5, .num 0, .num 1, .null, .null⟩ := rfl

/-- C1 (amended): `IntegerTypeData.from_json` performs no validation of field
values; it succeeds exactly when every key of the object is a declared field
and `min`, `max`, `scale`, `step` are all present (otherwise Python raises
`TypeError`, not a `MalformedDescriptor` error).  In particular
`{"min":10,"max":5,"scale":0,"step":1}` constructs successfully, as does a
descriptor with a non-numeric `min`, a negative `scale` and a zero `step`. -/
theorem c1_from_json_no_validation :
    (∀ d : JObj, (∃ r, IntegerTypeDataRaw.from_json d = .ok r) ↔
      ((∀ kv ∈ d, kv.1 ∈ integerTypeFields) ∧
        (d.lookup "min").isSome ∧ (d.lookup "max").isSome ∧
        (d.lookup "scale").isSome ∧ (d.lookup "step").isSome)) ∧
    IntegerTypeDataRaw.from_json descMinGtMax =
      .ok ⟨.num 10, .num 5, .num 0, .num 1, .null, .null⟩ ∧
    IntegerTypeDataRaw.from_json
        [("min", .str "x"), ("max", .num 5), ("scale", .num (-1)), ("step", .num 0)] =
      .ok ⟨.str "x", .num 5, .num (-1), .num 0, .null, .null⟩ := by
  refine ⟨fun d => ⟨?_, ?_⟩, rfl, rfl⟩
  · rintro ⟨r, hr⟩
    unfold IntegerTypeDataRaw.from_json at hr
    by_cases hall : d.all (fun kv => integerTypeFields.contains kv.1) = true
    · rw [if_pos hall] at hr
      have hmem : ∀ kv ∈ d, kv.1 ∈ integerTypeFields := by
        intro kv hkv
        exact List.elem_iff.mp (List.all_eq_true.mp hall kv hkv)
      refine ⟨hmem, ?_⟩
      cases hmn : d.lookup "min" <;> cases hmx : d.lookup "max" <;>
        cases hsc : d.lookup "scale" <;> cases hst : d.lookup "step" <;>
        rw [hmn, hmx, hsc, hst] at hr <;> simp_all
    · rw [if_neg hall] at hr
      cases hr
  · rintro ⟨hmem, h1, h2, h3, h4⟩
    have hall : d.all (fun kv => integerTypeFields.contains kv.1) = true := by
      rw [List.all_eq_true]
      intro kv hkv
      exact List.elem_iff.mpr (hmem kv hkv)
    obtain ⟨mn, hmn⟩ := Option.isSome_iff_exists.mp h1
    obtain ⟨mx, hmx⟩ := Option.isSome_iff_exists.mp h2
    obtain ⟨sc, hsc⟩ := Option.isSome_iff_exists.mp h3
    obtain ⟨st, hst⟩ := Option.isSome_iff_exists.mp h4
    unfold IntegerTypeDataRaw.from_json
    rw [if_pos hall, hmn, hmx, hsc, hst]
    exact ⟨_, rfl⟩

/-- C7 counterexample: the descriptor `{"range": ["open","closed","open"]}`
does not fail: `from_json` constructs an instance holding the duplicated
list. -/
theorem c7_duplicate_range_accepted :
    EnumTypeData.from_json descDupRange =
      .ok ⟨.arr [.str "open", .str "closed", .str "open"]⟩ := rfl

/-- C7 (amended): `EnumTypeData.from_json` performs no validation of the list
value; it succeeds exactly when every key of the object is `range` and
`range` is present (otherwise Python raises `TypeError`, not a
`MalformedDescriptor` error).  In particular the duplicated list
`{"range":["open","closed","open"]}` and the empty list `{"range":[]}`
both construct successfully. -/
theorem c7_enum_from_json_no_validation :
    (∀ d : JObj, (∃ r, EnumTypeData.from_json d = .ok r) ↔
      ((∀ kv ∈ d, kv.1 = "range") ∧ (d.lookup "range").isSome)) ∧
    EnumTypeData.from_json descDupRange =
      .ok ⟨.arr [.str "open", .str "closed", .str "open"]⟩ ∧
    EnumTypeData.from_json [("range", .arr [])] = .ok ⟨.arr []⟩ := by
  refine ⟨fun d => ⟨?_, ?_⟩, rfl, rfl⟩
  · rintro ⟨r, hr⟩
    unfold EnumTypeData.from_json at hr
    by_cases hall : d.all (fun kv => kv.1 == "range") = true
    · rw [if_pos hall] at hr
      have hmem : ∀ kv ∈ d, kv.1 = "range" := by
        intro kv hkv
        exact eq_of_beq (List.all_eq_true.mp hall kv hkv)
      refine ⟨hmem, ?_⟩
      cases hrg : d.lookup "range" <;> rw [hrg] at hr <;> simp_all
    · rw [if_neg hall] at hr
      cases hr
  · rintro ⟨hmem, h1⟩
    have hall : d.all (fun kv => kv.1 == "range") = true := by
      rw [List.all_eq_true]
      intro kv hkv
      exact beq_iff_eq.mpr (hmem kv hkv)
    obtain ⟨v, hv⟩ := Option.isSome_iff_exists.mp h1
    unfold EnumTypeData.from_json
    rw [if_pos hall, hv]
    exact ⟨_, rfl⟩

/-- C10: `from_json` rejects any object containing a key outside the declared
fields with a `TypeError`, for both `IntegerTypeData` (declared fields
`min, max, scale, step, unit, type`) and `EnumTypeData` (declared field
`range`), regardless of the remaining keys and values. -/
theorem c10_extra_key_rejected :
    (∀ d : JObj, (∃ kv, kv ∈ d ∧ kv.1 ∉ integerTypeFields) →
        IntegerTypeDataRaw.from_json d = .error .typeError) ∧
    (∀ d : JObj, (∃ kv, kv ∈ d ∧ kv.1 ≠ "range") →
        EnumTypeData.from_json d = .error .typeError) := by
  constructor
  · rintro d ⟨kv, hkv, hnot⟩
    have hall : ¬(d.all (fun kv => integerTypeFields.contains kv.1) = true) := by
      intro hall
      exact hnot (List.elem_iff.mp (List.all_eq_true.mp hall kv hkv))
    unfold IntegerTypeDataRaw.from_json
    rw [if_neg hall]
  · rintro d ⟨kv, hkv, hnot⟩
    have hall : ¬(d.all (fun kv => kv.1 == "range") = true) := by
      intro hall
      exact hnot (eq_of_beq (List.all_eq_true.mp hall kv hkv))
    unfold EnumTypeData.from_json
    rw [if_neg hall]

/-- C10 witness: a descriptor whose declared fields are all present and valid
but which carries one extra key `"extra"` is rejected, for both dataclasses. -/
theorem c10_extra_key_rejected_witness :
    IntegerTypeDataRaw.from_json
        [("min", .num 0), ("max", .num 100), ("scale", .num 1), ("step", .num 1),
          ("extra", .num 1)] = .error .typeError ∧
    EnumTypeData.from_json [("range", .arr [.str "on", .str "off"]), ("extra", .num 1)] =
      .error .typeError :=
  ⟨c10_extra_key_rejected.1 _ ⟨("extra", .num 1),
      by simp, by simp [integerTypeFields]⟩,
    c10_extra_key_rejected.2 _ ⟨("extra", .num 1), by simp, by simp⟩⟩

end Aqara
